import Mathlib

/-!
Verification of the version-decision engine of the `verse` monorepo
versioning tool.  JavaScript strings are modelled as `List Char`
(sequences of UTF-16 code units); JavaScript `Map`s are modelled as
association lists with unique keys kept in insertion order.
All definitions are shallow embeddings of the TypeScript source
(`src/config/index.ts`, `src/utils/commits.ts`, `src/semver/index.ts`,
`src/graph/index.ts`, `src/runner.ts`,
`src/adapters/gradle/gradleUtils.ts`, `src/adapters/versionManager.ts`);
where the implementation of a repository function is not present in the
source tree (only its `.d.ts` declaration, callers and tests are), the
definition's doc comment says so and names what is modelled.
-/

/-- BumpType from `src/adapters/core.ts`:
`'major' | 'minor' | 'patch' | 'none'`. -/
inductive BumpType where
  | none
  | patch
  | minor
  | major
deriving DecidableEq

/-- The priority table used by `maxBumpType`
(`{ none: 0, patch: 1, minor: 2, major: 3 }`). -/
def BumpType.priority : BumpType → Nat
  | .none => 0
  | .patch => 1
  | .minor => 2
  | .major => 3

/-- The binary step of the `reduce` inside `maxBumpType`
(`priority[current] > priority[max] ? current : max`). -/
def bumpReduceStep (mx current : BumpType) : BumpType :=
  if current.priority > mx.priority then current else mx

/-- `maxBumpType` from `src/semver/index.ts`: reduce over the array with
initial accumulator `'none'`. -/
def maxBumpType (bumpTypes : List BumpType) : BumpType :=
  bumpTypes.foldl bumpReduceStep BumpType.none

/-- A config entry value: `BumpType | 'ignore'` from `Config.commitTypes`
in `src/config/index.ts`. -/
inductive CommitTypeBump where
  | ignore
  | bump (b : BumpType)
deriving DecidableEq

/-- The fields of `Config` from `src/config/index.ts` that the
version-decision engine reads (`defaultBump`, `commitTypes`,
`dependencyRules`). -/
structure Config where
  defaultBump : BumpType
  commitTypes : List (List Char × CommitTypeBump)
  onMajorOfDependency : BumpType
  onMinorOfDependency : BumpType
  onPatchOfDependency : BumpType
deriving DecidableEq

/-- The fields of `CommitInfo` from `src/adapters/core.ts` that the
classifier reads. -/
structure CommitInfo where
  type : List Char
  breaking : Bool
deriving DecidableEq

/-- `getBumpTypeForCommit` from `src/config/index.ts`: breaking commits
are always `major`; a type mapped to `'ignore'` yields `'none'`; an
unmapped type falls back to `config.defaultBump`
(`configuredBump || config.defaultBump` — every mapped value is a
non-empty string, hence truthy). -/
def getBumpTypeForCommit (commitType : List Char) (isBreaking : Bool)
    (config : Config) : BumpType :=
  if isBreaking then BumpType.major
  else
    match config.commitTypes.lookup commitType with
    | some CommitTypeBump.ignore => BumpType.none
    | some (CommitTypeBump.bump b) => b
    | Option.none => config.defaultBump

/-- `calculateBumpFromCommits` from `src/utils/commits.ts`: collect the
per-commit bump types, dropping `'none'`, and take `maxBumpType`. -/
def calculateBumpFromCommits (commits : List CommitInfo) (config : Config) :
    BumpType :=
  maxBumpType (((commits.map
    (fun c => getBumpTypeForCommit c.type c.breaking config)).filter
      (fun b => b != BumpType.none)))

/-- The per-commit contribution of the commit classifier. -/
def bumpContribution (config : Config) (c : CommitInfo) : BumpType :=
  getBumpTypeForCommit c.type c.breaking config

/-- `getDependencyBumpType` from `src/config/index.ts`. -/
def getDependencyBumpType (dependencyBumpType : BumpType) (config : Config) :
    BumpType :=
  match dependencyBumpType with
  | BumpType.major => config.onMajorOfDependency
  | BumpType.minor => config.onMinorOfDependency
  | BumpType.patch => config.onPatchOfDependency
  | BumpType.none => BumpType.none

/-- The default configuration `DEFAULT_CONFIG` of `src/config/index.ts`
(dependency rules: major of dependency gives minor, minor gives patch,
patch gives none; `defaultBump: 'patch'`; the commit-type table restricted
to the entries the claims exercise). -/
def DEFAULT_CONFIG : Config :=
  { defaultBump := BumpType.patch
    commitTypes :=
      [ ("feat".data, CommitTypeBump.bump BumpType.minor)
      , ("fix".data, CommitTypeBump.bump BumpType.patch)
      , ("docs".data, CommitTypeBump.ignore)
      , ("chore".data, CommitTypeBump.ignore) ]
    onMajorOfDependency := BumpType.minor
    onMinorOfDependency := BumpType.patch
    onPatchOfDependency := BumpType.none }

/-- The `'-SNAPSHOT'` suffix constant of
`src/adapters/gradle/gradleUtils.ts`. -/
def SNAPSHOT_SUFFIX : List Char := "-SNAPSHOT".data

/-- JavaScript `String.prototype.endsWith`, as a suffix test on the
code-unit sequence. -/
def jsEndsWith (s sfx : List Char) : Bool := sfx.isSuffixOf s

/-- `applyGradleSnapshot` from `src/adapters/gradle/gradleUtils.ts`:
append `-SNAPSHOT` unless the string already ends with it. -/
def applyGradleSnapshot (version : List Char) : List Char :=
  if jsEndsWith version SNAPSHOT_SUFFIX then version
  else version ++ SNAPSHOT_SUFFIX

/-- One prerelease identifier as stored by node-semver's `SemVer`
constructor: numeric-looking identifiers are converted to numbers,
others stay strings. -/
inductive PreId where
  | num (n : Nat)
  | str (s : List Char)
deriving DecidableEq

/-- The node-semver `SemVer` object as the repository uses it: the three
numeric components, the prerelease identifier list, the build-metadata
identifier list, and `raw` (the exact string the object was parsed
from; `formatSemVer` returns it). -/
structure SemV where
  major : Nat
  minor : Nat
  patch : Nat
  prerelease : List PreId
  build : List (List Char)
  raw : List Char
deriving DecidableEq

/-- Decimal digits of a natural number, as characters. -/
def natStr (n : Nat) : List Char := (Nat.repr n).data

/-- Rendering of one prerelease identifier (numbers are stringified, as
in JavaScript `join`). -/
def preIdStr : PreId → List Char
  | PreId.num n => natStr n
  | PreId.str s => s

/-- node-semver `SemVer.format`: the canonical `M.m.p[-prerelease]`
string (`this.version`); build metadata is not included. -/
def versionStr (v : SemV) : List Char :=
  natStr v.major ++ '.' :: natStr v.minor ++ '.' :: natStr v.patch ++
    (if v.prerelease.isEmpty then []
     else '-' :: List.intercalate ['.'] (v.prerelease.map preIdStr))

/-- Build a `SemV` whose `raw` is its own canonical format string; this
is what the repository's helpers obtain when they re-parse a version
string they just produced (node-semver `inc` returns `.version`). -/
def canonSemV (major minor patch : Nat) (prerelease : List PreId) : SemV :=
  let v : SemV := ⟨major, minor, patch, prerelease, [], []⟩
  { v with raw := versionStr v }

/-- `formatSemVer` from `src/semver/index.ts`: `return version.raw`. -/
def formatSemVer (version : SemV) : List Char := version.raw

/-- node-semver `SemVer.inc` for the release types `major`, `minor` and
`patch` (the exact conditional increments of the library: a component is
incremented only when the lower components and the prerelease tag do not
already make the move an increase); `bumpSemVer` delegates to this.
The repository's `src/semver/index.ts` calls `semver.inc`, whose source
(the node-semver package) is not part of this repository; this is its
published algorithm. -/
def semverInc (v : SemV) (bumpType : BumpType) : SemV :=
  match bumpType with
  | BumpType.major =>
    canonSemV
      (if v.minor ≠ 0 ∨ v.patch ≠ 0 ∨ v.prerelease = [] then v.major + 1
       else v.major) 0 0 []
  | BumpType.minor =>
    canonSemV v.major
      (if v.patch ≠ 0 ∨ v.prerelease = [] then v.minor + 1 else v.minor) 0 []
  | BumpType.patch =>
    canonSemV v.major v.minor
      (if v.prerelease = [] then v.patch + 1 else v.patch) []
  | BumpType.none => v

/-- `bumpSemVer` from `src/semver/index.ts`: `'none'` returns the version
unchanged, otherwise `semver.inc`. -/
def bumpSemVer (version : SemV) (bumpType : BumpType) : SemV :=
  if bumpType = BumpType.none then version else semverInc version bumpType

/-- Increment the last numeric identifier of a prerelease list (node-semver
`inc('pre')` walks the identifiers from the end); the Bool reports whether
a numeric identifier was found. -/
def incLastNumeric : List PreId → List PreId × Bool
  | [] => ([], false)
  | x :: xs =>
    let r := incLastNumeric xs
    if r.2 then (x :: r.1, true)
    else
      match x with
      | PreId.num n => (PreId.num (n + 1) :: xs, true)
      | PreId.str s => (PreId.str s :: xs, false)

/-- Whether a (non-empty) string is all decimal digits. -/
def isDigits (s : List Char) : Bool := !s.isEmpty && s.all Char.isDigit

/-- Numeric value of a digit string. -/
def digitsVal (s : List Char) : Nat :=
  s.foldl (fun acc c => acc * 10 + (c.toNat - '0'.toNat)) 0

/-- node-semver `inc('pre')` with an identifier and default identifier
base 0: bump the trailing numeric counter (appending `0` when there is
none), then, if the first identifier does not equal the requested one, or
the second slot is not numeric, restart at `identifier.0`.  An empty
identifier skips the identifier adjustment, as in the library
(`if (identifier)`). -/
def preStep (pre : List PreId) (id : List Char) : List PreId :=
  let pre1 :=
    if pre.isEmpty then [PreId.num 0]
    else
      let r := incLastNumeric pre
      if r.2 then r.1 else pre ++ [PreId.num 0]
  if id.isEmpty then pre1
  else
    let headMatches : Bool :=
      match pre1 with
      | PreId.str s :: _ => s == id
      | PreId.num n :: _ => isDigits id && (digitsVal id == n)
      | [] => false
    if headMatches then
      match pre1 with
      | _ :: PreId.num _ :: _ => pre1
      | _ => [PreId.str id, PreId.num 0]
    else [PreId.str id, PreId.num 0]

/-- Modelled from the spec: `bumpToPrerelease` of `src/semver/index.ts` is
declared in the source tree (`index.d.ts`) and pinned by its unit tests,
but its implementation file is absent from `src/`.  Modelled from spec
§4.3 stages 1–2 together with the repository's own tests
(`semver-prerelease` test file) and the node-semver
`inc('prerelease'/'prepatch'/'preminor'/'premajor', identifier)`
semantics they exercise: a real bump clears the prerelease tag, increments
the corresponding component and starts the counter at `identifier.0`;
bump `'none'` increments an existing counter (or enters prerelease space
with an implicit patch bump when the version has no prerelease tag). -/
def bumpToPrerelease (version : SemV) (bumpType : BumpType)
    (prereleaseId : List Char) : SemV :=
  match bumpType with
  | BumpType.none =>
    let base :=
      if version.prerelease.isEmpty then semverInc version BumpType.patch
      else version
    canonSemV base.major base.minor base.patch
      (preStep version.prerelease prereleaseId)
  | BumpType.patch =>
    canonSemV version.major version.minor (version.patch + 1)
      (preStep [] prereleaseId)
  | BumpType.minor =>
    canonSemV version.major (version.minor + 1) 0 (preStep [] prereleaseId)
  | BumpType.major =>
    canonSemV (version.major + 1) 0 0 (preStep [] prereleaseId)

/-- Modelled from the spec: `addBuildMetadata` of `src/semver/index.ts` is
declared in the source tree but its implementation file is absent from
`src/`; per its declaration, the build-metadata tests, and spec §4.3
stage 4, it attaches the run's metadata value to the version so that
`formatSemVer` yields `<version>+<metadata>`. -/
def addBuildMetadata (version : SemV) (buildMetadata : List Char) : SemV :=
  { version with
    build := [buildMetadata]
    raw := versionStr version ++ '+' :: buildMetadata }

/-- Comparison of two prerelease identifiers, node-semver
`compareIdentifiers`: numbers compare numerically, numbers sort before
strings, strings compare as JavaScript strings (code-unit
lexicographic). -/
def cmpIdent : PreId → PreId → Ordering
  | PreId.num a, PreId.num b => compare a b
  | PreId.num _, PreId.str _ => Ordering.lt
  | PreId.str _, PreId.num _ => Ordering.gt
  | PreId.str a, PreId.str b => compare a b

/-- Element-wise comparison of two non-empty prerelease identifier lists;
a strict prefix sorts first. -/
def cmpPreList : List PreId → List PreId → Ordering
  | [], [] => Ordering.eq
  | [], _ :: _ => Ordering.lt
  | _ :: _, [] => Ordering.gt
  | a :: as, b :: bs =>
    match cmpIdent a b with
    | Ordering.eq => cmpPreList as bs
    | o => o

/-- node-semver `comparePre`: a version without a prerelease tag sorts
after any prerelease of the same core. -/
def cmpPre (a b : List PreId) : Ordering :=
  if a.isEmpty && b.isEmpty then Ordering.eq
  else if a.isEmpty then Ordering.gt
  else if b.isEmpty then Ordering.lt
  else cmpPreList a b

/-- `compareSemVer` from `src/semver/index.ts`, i.e. node-semver
`compare`: main components numerically, then the prerelease rule; build
metadata is ignored. -/
def compareSemVer (a b : SemV) : Ordering :=
  match compare a.major b.major with
  | Ordering.eq =>
    match compare a.minor b.minor with
    | Ordering.eq =>
      match compare a.patch b.patch with
      | Ordering.eq => cmpPre a.prerelease b.prerelease
      | o => o
    | o => o
  | o => o

/-- `ChangeReason | 'unchanged'` from `src/adapters/core.ts`. -/
inductive Reason where
  | commits
  | dependency
  | cascade
  | prereleaseUnchanged
  | buildMetadata
  | gradleSnapshot
  | unchanged
deriving DecidableEq

/-- `ProcessingModuleChange` from `src/adapters/core.ts`, with the
module's id inlined (the cascade and the runner read only
`module.id` from the embedded `ProjectInfo`). -/
structure ProcessingModuleChange where
  id : String
  fromVersion : SemV
  toVersion : List Char
  bumpType : BumpType
  reason : Reason
  needsProcessing : Bool
deriving DecidableEq

/-- The `RunnerOptions` fields of `src/runner.ts` that the
version-computation stage reads. -/
structure RunnerOptions where
  adapter : List Char
  prereleaseMode : Bool
  prereleaseId : List Char
  bumpUnchanged : Bool
  addBuildMetadata : Bool
  timestampVersions : Bool
  gradleSnapshot : Bool
deriving DecidableEq

/-- The initial `reason`/`needsProcessing` classification of
`src/runner.ts` (the chain of `if`s over the commit-derived bump type and
the active modes). -/
def classifyInitial (opts : RunnerOptions) (bumpType : BumpType) :
    Reason × Bool :=
  if bumpType ≠ BumpType.none then (Reason.commits, true)
  else if opts.prereleaseMode && opts.bumpUnchanged then
    (Reason.prereleaseUnchanged, true)
  else if opts.addBuildMetadata then (Reason.buildMetadata, true)
  else (Reason.unchanged, false)

/-- The initial decision built by the runner for one module: bump type
from the commit classifier, reason and processing flag from
`classifyInitial`, `toVersion` still empty. -/
def mkInitialChange (opts : RunnerOptions) (moduleId : String)
    (version : SemV) (commits : List CommitInfo) (config : Config) :
    ProcessingModuleChange :=
  let bumpType := calculateBumpFromCommits commits config
  let rc := classifyInitial opts bumpType
  { id := moduleId
    fromVersion := version
    toVersion := []
    bumpType := bumpType
    reason := rc.1
    needsProcessing := rc.2 }

/-- Scenarios 1–4 of the per-decision version calculation in
`src/runner.ts` (the `if`/`else if` chain selecting between
`bumpToPrerelease`, `bumpSemVer`, the forced prerelease bump, and keeping
`fromVersion`). -/
def computeCore (opts : RunnerOptions) (effectivePrereleaseId : List Char)
    (change : ProcessingModuleChange) : SemV :=
  if change.bumpType ≠ BumpType.none ∧ opts.prereleaseMode = true then
    bumpToPrerelease change.fromVersion change.bumpType effectivePrereleaseId
  else if change.bumpType ≠ BumpType.none ∧ opts.prereleaseMode = false then
    bumpSemVer change.fromVersion change.bumpType
  else if change.reason = Reason.prereleaseUnchanged then
    bumpToPrerelease change.fromVersion BumpType.none effectivePrereleaseId
  else change.fromVersion

/-- The `newVersion` a decision ends up with in `src/runner.ts`:
scenarios 1–4 followed by the build-metadata step
(`if (this.options.addBuildMetadata && shortSha)`), all under the
`needsProcessing` guard. -/
def computeNewVersion (opts : RunnerOptions) (shortSha : Option (List Char))
    (effectivePrereleaseId : List Char) (change : ProcessingModuleChange) :
    SemV :=
  if change.needsProcessing = true then
    let newVersion := computeCore opts effectivePrereleaseId change
    match shortSha with
    | some m =>
      if opts.addBuildMetadata = true then addBuildMetadata newVersion m
      else newVersion
    | Option.none => newVersion
  else change.fromVersion

/-- The full per-decision version stage of `src/runner.ts`: stringify the
computed version into `toVersion`, then, when the Gradle snapshot mode is
active (`gradleSnapshot && adapter === 'gradle'`), apply the snapshot
suffix and flip `needsProcessing`/`reason` when the suffix actually
changed an unprocessed module's string. -/
def applyVersionCalculation (opts : RunnerOptions)
    (shortSha : Option (List Char)) (effectivePrereleaseId : List Char)
    (change : ProcessingModuleChange) : ProcessingModuleChange :=
  let newVersion := computeNewVersion opts shortSha effectivePrereleaseId change
  let change1 := { change with toVersion := formatSemVer newVersion }
  if opts.gradleSnapshot = true ∧ opts.adapter = "gradle".data then
    let originalVersion := change1.toVersion
    let change2 := { change1 with
      toVersion := applyGradleSnapshot change1.toVersion }
    if change1.needsProcessing = false ∧ change2.toVersion ≠ originalVersion
    then { change2 with needsProcessing := true
                        reason := Reason.gradleSnapshot }
    else change2
  else change1

/-- JavaScript `Map.prototype.set` on an insertion-ordered association
list: overwrite an existing key in place, otherwise append. -/
def mapSet {α : Type} (k : String) (v : α) (m : List (String × α)) :
    List (String × α) :=
  if m.any (fun p => p.1 = k) then
    m.map (fun p => if p.1 = k then (k, v) else p)
  else m ++ [(k, v)]

/-- Overwrite the value stored at a key that is known to be present
(mutation of a shared object retrieved from the map). -/
def mapUpdate {α : Type} (k : String) (v : α) (m : List (String × α)) :
    List (String × α) :=
  m.map (fun p => if p.1 = k then (k, v) else p)

/-- The mutable state of the worklist loop of `calculateCascadeEffects`
(`src/graph/index.ts`): the id-keyed decision map, the FIFO queue (ids of
the shared decision objects) and the processed set. -/
structure CascadeState where
  moduleMap : List (String × ProcessingModuleChange)
  queue : List String
  processed : List String
deriving DecidableEq

/-- The initialisation of `calculateCascadeEffects`: index all decisions
by module id, seed the queue with every decision, empty processed set. -/
def initCascadeState (allModuleChanges : List ProcessingModuleChange) :
    CascadeState :=
  { moduleMap :=
      allModuleChanges.foldl (fun acc c => mapSet c.id c acc) []
    queue := allModuleChanges.map (fun c => c.id)
    processed := [] }

/-- The inner `for`-loop of `calculateCascadeEffects` over
`currentModuleInfo.affectedProjects`: skip processed or unknown
dependents and `'none'` cascades; otherwise merge with `maxBumpType`,
and when the merge raised the bump (or the dependent was not yet marked
for processing) update the shared object and push it.  Returns the
updated map together with the ids pushed onto the queue. -/
def cascadeVisit (rule : BumpType → BumpType) (currentBump : BumpType)
    (processed : List String)
    (acc : List (String × ProcessingModuleChange) × List String)
    (dependentName : String) :
    List (String × ProcessingModuleChange) × List String :=
  if processed.contains dependentName then acc
  else
    match acc.1.lookup dependentName with
    | Option.none => acc
    | some existingChange =>
      let requiredBump := rule currentBump
      if requiredBump = BumpType.none then acc
      else
        let mergedBump := maxBumpType [existingChange.bumpType, requiredBump]
        if mergedBump ≠ existingChange.bumpType ∨
            existingChange.needsProcessing = false then
          (mapUpdate dependentName
             { existingChange with
               bumpType := mergedBump
               reason := Reason.cascade
               needsProcessing := true } acc.1,
           acc.2 ++ [dependentName])
        else acc

def cascadeInner (rule : BumpType → BumpType) (currentBump : BumpType)
    (processed : List String) (deps : List String)
    (mp : List (String × ProcessingModuleChange)) :
    List (String × ProcessingModuleChange) × List String :=
  deps.foldl (cascadeVisit rule currentBump processed) (mp, [])

/-- One iteration of the `while (queue.length > 0)` loop of
`calculateCascadeEffects`: pop, skip already-processed / non-processing /
`'none'` decisions, otherwise mark processed and visit the affected
modules. -/
def cascadeStep (affects : String → List String) (rule : BumpType → BumpType)
    (s : CascadeState) : CascadeState :=
  match s.queue with
  | [] => s
  | currentId :: rest =>
    match s.moduleMap.lookup currentId with
    | Option.none => { s with queue := rest }
    | some currentChange =>
      if s.processed.contains currentId ||
          !currentChange.needsProcessing ||
          currentChange.bumpType == BumpType.none then
        { s with queue := rest }
      else
        let processed1 := s.processed ++ [currentId]
        let r := cascadeInner rule currentChange.bumpType processed1
          (affects currentId) s.moduleMap
        { moduleMap := r.1, queue := rest ++ r.2, processed := processed1 }

/-- Run the worklist loop for at most `fuel` iterations. -/
def cascadeRun (affects : String → List String) (rule : BumpType → BumpType) :
    Nat → CascadeState → CascadeState
  | 0, s => s
  | fuel + 1, s =>
    match s.queue with
    | [] => s
    | _ :: _ => cascadeRun affects rule fuel (cascadeStep affects rule s)

/-- Per-decision termination potential: how much a decision's
`(bumpType, needsProcessing)` pair can still rise. -/
def cascadePhi (c : ProcessingModuleChange) : Nat :=
  (3 - c.bumpType.priority) + (if c.needsProcessing then 0 else 1)

/-- Total potential of the decision map. -/
def cascadePot (m : List (String × ProcessingModuleChange)) : Nat :=
  (m.map (fun p => cascadePhi p.2)).sum

/-- Termination measure of the worklist loop: queue length plus total
potential. -/
def cascadeMeasure (s : CascadeState) : Nat :=
  s.queue.length + cascadePot s.moduleMap

/-- `calculateCascadeEffects` from `src/graph/index.ts`: run the worklist
loop to completion (the measure bounds the number of iterations, as
proved below) and return the decision collection with the cascade
effects applied. -/
def calculateCascadeEffects (affects : String → List String)
    (rule : BumpType → BumpType)
    (allModuleChanges : List ProcessingModuleChange) :
    List ProcessingModuleChange :=
  let s0 := initCascadeState allModuleChanges
  ((cascadeRun affects rule (cascadeMeasure s0) s0).moduleMap).map
    (fun p => p.2)

/-- The staging state of `VersionManager`
(`src/adapters/versionManager.ts`): the two in-memory maps of pending
updates (`SemVer`-valued and string-valued). -/
structure VMState where
  pendingVersionUpdates : List (String × SemV)
  pendingVersionStringUpdates : List (String × List Char)
deriving DecidableEq

/-- `hasPendingUpdates`: either map is non-empty. -/
def hasPendingUpdates (st : VMState) : Bool :=
  !st.pendingVersionUpdates.isEmpty || !st.pendingVersionStringUpdates.isEmpty

/-- The `moduleVersions` batch built inside `commit()`: the formatted
`SemVer` updates, then the string updates (which take priority on key
collisions, via `Map.set`). -/
def commitBatch (st : VMState) : List (String × List Char) :=
  let m := st.pendingVersionUpdates.foldl
    (fun acc p => mapSet p.1 (formatSemVer p.2) acc) []
  st.pendingVersionStringUpdates.foldl (fun acc p => mapSet p.1 p.2 acc) m

/-- Result of one `commit()` call: the staging state afterwards, whether
the call succeeded, and the list of batches passed to
`strategy.writeVersionUpdates` during the call. -/
structure CommitOutcome where
  state : VMState
  ok : Bool
  calls : List (List (String × List Char))
deriving DecidableEq

/-- `VersionManager.commit()` from `src/adapters/versionManager.ts`,
with the write-back collaborator abstracted as a function reporting
success or failure: nothing pending returns immediately without invoking
the strategy; otherwise the strategy is invoked once with the full batch,
and the pending maps are cleared only after it succeeds (a strategy
failure propagates before the `clear()` calls, leaving the maps
intact). -/
def VersionManager.commit
    (strategyOk : List (String × List Char) → Bool) (st : VMState) :
    CommitOutcome :=
  if st.pendingVersionUpdates.isEmpty &&
      st.pendingVersionStringUpdates.isEmpty then
    { state := st, ok := true, calls := [] }
  else
    let batch := commitBatch st
    if strategyOk batch then
      { state := { pendingVersionUpdates := []
                   pendingVersionStringUpdates := [] }
        ok := true
        calls := [batch] }
    else { state := st, ok := false, calls := [batch] }

/-- node-semver `MAX_SAFE_INTEGER` bound on numeric components. -/
def MAX_SAFE_INTEGER : Nat := 2 ^ 53 - 1

/-- node-semver `MAX_LENGTH` bound on the whole version string. -/
def MAX_LENGTH : Nat := 256

/-- JavaScript `String.prototype.trim` whitespace (the ASCII subset;
version strings never contain the exotic ones). -/
def isJsSpace (c : Char) : Bool :=
  c = ' ' || c = '\t' || c = '\n' || c = '\r' ||
    c = '\x0b' || c = '\x0c'

/-- JavaScript `trim` on a code-unit list. -/
def jsTrim (s : List Char) : List Char :=
  ((s.dropWhile isJsSpace).reverse.dropWhile isJsSpace).reverse

/-- A numeric identifier of the semver grammar (`0|[1-9]\d*`): digits
only, no leading zero. -/
def isNumericCore (s : List Char) : Bool :=
  isDigits s && (s.length == 1 || !(s.head? == some '0'))

/-- One character of the `[0-9A-Za-z-]` identifier alphabet. -/
def isIdentChar (c : Char) : Bool :=
  c.isDigit || (c ≥ 'a' && c ≤ 'z') || (c ≥ 'A' && c ≤ 'Z') || c = '-'

/-- Parse one `major`/`minor`/`patch` component: numeric, and at most
`MAX_SAFE_INTEGER` (the `SemVer` constructor throws above it). -/
def parseMainNum (s : List Char) : Option Nat :=
  if isNumericCore s && decide (digitsVal s ≤ MAX_SAFE_INTEGER) then
    some (digitsVal s)
  else Option.none

/-- Parse one prerelease identifier: a numeric identifier becomes a
number when below `MAX_SAFE_INTEGER` (as in the constructor's `map`),
otherwise the identifier must contain a non-digit from the identifier
alphabet (`\d*[a-zA-Z-][a-zA-Z0-9-]*`). -/
def parsePreId (s : List Char) : Option PreId :=
  if isNumericCore s then
    if decide (digitsVal s < MAX_SAFE_INTEGER) then some (PreId.num (digitsVal s))
    else some (PreId.str s)
  else if !s.isEmpty && s.all isIdentChar && s.any (fun c => !c.isDigit) then
    some (PreId.str s)
  else Option.none

/-- One build identifier (`[0-9A-Za-z-]+`). -/
def isBuildId (s : List Char) : Bool := !s.isEmpty && s.all isIdentChar

/-- Split a list at the first occurrence of a separator character,
returning the part before it and (when found) the part after it. -/
def breakAtFirst (sep : Char) : List Char → List Char × Option (List Char)
  | [] => ([], Option.none)
  | c :: cs =>
    if c = sep then ([], some cs)
    else
      let r := breakAtFirst sep cs
      (c :: r.1, r.2)

/-- Traverse a list of optional results. -/
def collectSome {α β : Type} (f : α → Option β) : List α → Option (List β)
  | [] => some []
  | x :: xs =>
    match f x, collectSome f xs with
    | some y, some ys => some (y :: ys)
    | _, _ => Option.none

/-- Parse the trimmed version text against node-semver's strict `FULL`
grammar (`v?` then `major.minor.patch`, optional `-prerelease`, optional
`+build`); in a valid version the core contains only digits and dots, so
splitting at the first `-` and first `+` reproduces the regex's
decomposition. -/
def parseSemVerCore (t : List Char) :
    Option (Nat × Nat × Nat × List PreId × List (List Char)) :=
  let t1 := if t.head? = some 'v' then t.tail else t
  let pb := breakAtFirst '+' t1
  let mp := breakAtFirst '-' pb.1
  match (mp.1.splitOn '.').map parseMainNum with
  | [some ma, some mi, some pa] =>
    match mp.2 with
    | Option.none =>
      match pb.2 with
      | Option.none => some (ma, mi, pa, [], [])
      | some bstr =>
        if (bstr.splitOn '.').all isBuildId then
          some (ma, mi, pa, [], bstr.splitOn '.')
        else Option.none
    | some pstr =>
      match collectSome parsePreId (pstr.splitOn '.') with
      | Option.none => Option.none
      | some pre =>
        match pb.2 with
        | Option.none => some (ma, mi, pa, pre, [])
        | some bstr =>
          if (bstr.splitOn '.').all isBuildId then
            some (ma, mi, pa, pre, bstr.splitOn '.')
          else Option.none
  | _ => Option.none

/-- `parseSemVer` from `src/semver/index.ts`.  The source delegates to
`semver.parse` of the external node-semver package (not part of this
repository); modelled here from that library's published constructor:
reject over-long input, trim, match the strict grammar, and keep the
untrimmed input itself as `raw`.  A `none` result models the repository
function throwing `Invalid semantic version`. -/
def parseSemVer (versionString : List Char) : Option SemV :=
  if versionString.length > MAX_LENGTH then Option.none
  else
    match parseSemVerCore (jsTrim versionString) with
    | Option.none => Option.none
    | some r =>
      some { major := r.1, minor := r.2.1, patch := r.2.2.1
             prerelease := r.2.2.2.1, build := r.2.2.2.2
             raw := versionString }

/-- Pointwise relation between two decision maps: every decision present
in the first is present in the second with a bump type at least as
high.  Cascade propagation only moves decisions upward along this
relation. -/
def BumpLe (m m2 : List (String × ProcessingModuleChange)) : Prop :=
  ∀ id c, m.lookup id = some c →
    ∃ c', m2.lookup id = some c' ∧ c.bumpType.priority ≤ c'.bumpType.priority

/-! Concrete instances used by counterexamples and witnesses. -/

/-- Affects relation of the two-module counterexample graph: module `a`
affects module `c`. -/
def exAffects : String → List String := fun i => if i = "a" then ["c"] else []

/-- The dependency rule of the default configuration. -/
def exRule : BumpType → BumpType := fun b => getDependencyBumpType b DEFAULT_CONFIG

/-- Counterexample decision: module `a` with a major bump from commits. -/
def exChgA : ProcessingModuleChange :=
  { id := "a", fromVersion := canonSemV 1 0 0 [], toVersion := []
    bumpType := BumpType.major, reason := Reason.commits
    needsProcessing := true }

/-- Counterexample decision: module `c` with a patch bump from commits. -/
def exChgC : ProcessingModuleChange :=
  { id := "c", fromVersion := canonSemV 1 0 0 [], toVersion := []
    bumpType := BumpType.patch, reason := Reason.commits
    needsProcessing := true }

/-- Options with build metadata and the Gradle snapshot mode both on. -/
def exOptsC2 : RunnerOptions :=
  { adapter := "gradle".data, prereleaseMode := false
    prereleaseId := "alpha".data, bumpUnchanged := false
    addBuildMetadata := true, timestampVersions := false
    gradleSnapshot := true }

/-- A decision with a patch bump pending, from version 1.0.0. -/
def exChgC2 : ProcessingModuleChange :=
  { id := "m", fromVersion := canonSemV 1 0 0 [], toVersion := []
    bumpType := BumpType.patch, reason := Reason.commits
    needsProcessing := true }

/-- Options with only the Gradle snapshot mode on. -/
def exOptsC3 : RunnerOptions :=
  { adapter := "gradle".data, prereleaseMode := false
    prereleaseId := "alpha".data, bumpUnchanged := false
    addBuildMetadata := false, timestampVersions := false
    gradleSnapshot := true }

/-- An unchanged decision whose module version already ends in
`-SNAPSHOT`. -/
def exChgC3 : ProcessingModuleChange :=
  { id := "m"
    fromVersion :=
      ⟨1, 0, 0, [PreId.str ("SNAPSHOT".data)], [], "1.0.0-SNAPSHOT".data⟩
    toVersion := [], bumpType := BumpType.none, reason := Reason.unchanged
    needsProcessing := false }

/-- An unchanged decision at a plain release version. -/
def exChgC3b : ProcessingModuleChange :=
  { id := "m", fromVersion := canonSemV 2 0 0 [], toVersion := []
    bumpType := BumpType.none, reason := Reason.unchanged
    needsProcessing := false }

/-- Options for the pre-release scenario: pre-release mode with identifier
`alpha` and `bumpUnchanged` on. -/
def exOptsC7 : RunnerOptions :=
  { adapter := "gradle".data, prereleaseMode := true
    prereleaseId := "alpha".data, bumpUnchanged := true
    addBuildMetadata := false, timestampVersions := false
    gradleSnapshot := false }

/-- The initial decision of the scenario module at `1.2.4-alpha.0` with
no commits under `exOptsC7`. -/
def exChgC7 : ProcessingModuleChange :=
  mkInitialChange exOptsC7 "m"
    ⟨1, 2, 4, [PreId.str ("alpha".data), PreId.num 0], [],
      "1.2.4-alpha.0".data⟩ [] DEFAULT_CONFIG

/-- Plain-mode options (no special modes). -/
def exOptsPlain : RunnerOptions :=
  { adapter := "gradle".data, prereleaseMode := false
    prereleaseId := "alpha".data, bumpUnchanged := false
    addBuildMetadata := false, timestampVersions := false
    gradleSnapshot := false }

/-- A decision with a patch bump pending, from version 1.2.3. -/
def exChgC6 : ProcessingModuleChange :=
  { id := "lib", fromVersion := canonSemV 1 2 3 [], toVersion := []
    bumpType := BumpType.patch, reason := Reason.commits
    needsProcessing := true }

/-- A staging state with one pending update. -/
def exVMState : VMState := ⟨[("m", canonSemV 1 0 0 [])], []⟩

/-! Helper lemmas. -/

theorem bumpReduceStep_none_right (a : BumpType) :
    bumpReduceStep a BumpType.none = a := by
  cases a <;> rfl

theorem priority_le_bumpReduceStep_left (a b : BumpType) :
    a.priority ≤ (bumpReduceStep a b).priority := by
  unfold bumpReduceStep
  split
  · next h => exact Nat.le_of_lt h
  · exact Nat.le_refl _

theorem priority_le_bumpReduceStep_right (a b : BumpType) :
    b.priority ≤ (bumpReduceStep a b).priority := by
  unfold bumpReduceStep
  split
  · exact Nat.le_refl _
  · next h => exact Nat.le_of_not_lt h

theorem bumpReduceStep_eq_or (a b : BumpType) :
    bumpReduceStep a b = a ∨ bumpReduceStep a b = b := by
  unfold bumpReduceStep
  split
  · exact Or.inr rfl
  · exact Or.inl rfl

theorem foldl_bump_init_le (l : List BumpType) :
    ∀ init : BumpType, init.priority ≤ (l.foldl bumpReduceStep init).priority := by
  induction l with
  | nil => intro init; exact Nat.le_refl _
  | cons x xs ih =>
    intro init
    exact Nat.le_trans (priority_le_bumpReduceStep_left init x) (ih _)

theorem foldl_bump_mem_le (l : List BumpType) :
    ∀ init x, x ∈ l → x.priority ≤ (l.foldl bumpReduceStep init).priority := by
  induction l with
  | nil => intro _ _ h; cases h
  | cons y ys ih =>
    intro init x hx
    rcases List.mem_cons.mp hx with rfl | hx
    · exact Nat.le_trans (priority_le_bumpReduceStep_right init x)
        (foldl_bump_init_le ys _)
    · exact ih _ _ hx

theorem foldl_bump_eq_init_or_mem (l : List BumpType) :
    ∀ init, l.foldl bumpReduceStep init = init ∨ l.foldl bumpReduceStep init ∈ l := by
  induction l with
  | nil => intro _; exact Or.inl rfl
  | cons y ys ih =>
    intro init
    rcases ih (bumpReduceStep init y) with h | h
    · rw [List.foldl_cons, h]
      rcases bumpReduceStep_eq_or init y with h2 | h2
      · exact Or.inl h2
      · rw [h2]; exact Or.inr (List.mem_cons_self _ _)
    · exact Or.inr (List.mem_cons_of_mem _ h)

theorem foldl_bump_filter_none (l : List BumpType) :
    ∀ init, (l.filter (fun b => b != BumpType.none)).foldl bumpReduceStep init
      = l.foldl bumpReduceStep init := by
  induction l with
  | nil => intro _; rfl
  | cons y ys ih =>
    intro init
    by_cases hy : y = BumpType.none
    · subst hy
      have hcond : (BumpType.none != BumpType.none) = false := by decide
      simp only [List.filter_cons, hcond, Bool.false_eq_true, if_false]
      rw [List.foldl_cons, bumpReduceStep_none_right]
      exact ih init
    · have hcond : (y != BumpType.none) = true := by
        simpa [bne_iff_ne] using hy
      simp only [List.filter_cons, hcond, if_true]
      rw [List.foldl_cons, List.foldl_cons]
      exact ih (bumpReduceStep init y)

theorem snapshot_endsWith_append (v : List Char) :
    jsEndsWith (v ++ SNAPSHOT_SUFFIX) SNAPSHOT_SUFFIX = true := by
  unfold jsEndsWith
  exact List.isSuffixOf_iff_suffix.mpr (List.suffix_append v SNAPSHOT_SUFFIX)

theorem applyGradleSnapshot_of_endsWith (v : List Char)
    (h : jsEndsWith v SNAPSHOT_SUFFIX = true) : applyGradleSnapshot v = v := by
  unfold applyGradleSnapshot
  rw [if_pos h]

theorem applyGradleSnapshot_of_not_endsWith (v : List Char)
    (h : jsEndsWith v SNAPSHOT_SUFFIX = false) :
    applyGradleSnapshot v = v ++ SNAPSHOT_SUFFIX := by
  unfold applyGradleSnapshot
  rw [if_neg]
  rw [h]
  exact Bool.false_ne_true

/-- Claim C8: applying the ecosystem snapshot-suffix function twice yields
the same result as applying it once, and a version string that already
ends in `-SNAPSHOT` (equivalently, one of the form `w ++ "-SNAPSHOT"`) is
returned unchanged, never becoming `...-SNAPSHOT-SNAPSHOT`. -/
theorem applyGradleSnapshot_idempotent (version : List Char) :
    applyGradleSnapshot (applyGradleSnapshot version)
        = applyGradleSnapshot version ∧
    applyGradleSnapshot (version ++ SNAPSHOT_SUFFIX)
        = version ++ SNAPSHOT_SUFFIX := by
  have happ : applyGradleSnapshot (version ++ SNAPSHOT_SUFFIX)
      = version ++ SNAPSHOT_SUFFIX :=
    applyGradleSnapshot_of_endsWith _ (snapshot_endsWith_append version)
  refine ⟨?_, happ⟩
  by_cases h : jsEndsWith version SNAPSHOT_SUFFIX = true
  · rw [applyGradleSnapshot_of_endsWith version h,
      applyGradleSnapshot_of_endsWith version h]
  · rw [applyGradleSnapshot_of_not_endsWith version (Bool.eq_false_iff.mpr h)]
    exact happ

/-- Claim C4: the commit-classifier contract.  A breaking commit always
contributes `major`; a type mapped to `ignore` contributes nothing; an
unmapped type contributes `defaultBump`; the module's overall bump is the
maximum of the per-commit contributions under the priority order
`none < patch < minor < major` (it dominates every contribution and is
itself `none` or one of the contributions); the empty commit list yields
`none`. -/
theorem commit_classifier_contract :
    (∀ (ty : List Char) (config : Config),
      getBumpTypeForCommit ty true config = BumpType.major) ∧
    (∀ (ty : List Char) (config : Config),
      config.commitTypes.lookup ty = some CommitTypeBump.ignore →
      getBumpTypeForCommit ty false config = BumpType.none) ∧
    (∀ (ty : List Char) (config : Config),
      config.commitTypes.lookup ty = Option.none →
      getBumpTypeForCommit ty false config = config.defaultBump) ∧
    (∀ (commits : List CommitInfo) (config : Config) (c : CommitInfo),
      c ∈ commits →
      (bumpContribution config c).priority
        ≤ (calculateBumpFromCommits commits config).priority) ∧
    (∀ (commits : List CommitInfo) (config : Config),
      calculateBumpFromCommits commits config = BumpType.none ∨
      ∃ c ∈ commits,
        bumpContribution config c = calculateBumpFromCommits commits config) ∧
    (∀ config : Config, calculateBumpFromCommits [] config = BumpType.none) := by
  refine ⟨?_, ?_, ?_, ?_, ?_, ?_⟩
  · intro ty config; rfl
  · intro ty config h
    unfold getBumpTypeForCommit
    rw [if_neg Bool.false_ne_true, h]
  · intro ty config h
    unfold getBumpTypeForCommit
    rw [if_neg Bool.false_ne_true, h]
  · intro commits config c hc
    unfold calculateBumpFromCommits maxBumpType
    rw [foldl_bump_filter_none]
    exact foldl_bump_mem_le _ _ _
      (List.mem_map.mpr ⟨c, hc, rfl⟩)
  · intro commits config
    unfold calculateBumpFromCommits maxBumpType
    rw [foldl_bump_filter_none]
    rcases foldl_bump_eq_init_or_mem
        (commits.map (fun c => getBumpTypeForCommit c.type c.breaking config))
        BumpType.none with h | h
    · exact Or.inl h
    · rcases List.mem_map.mp h with ⟨c, hc, hcv⟩
      exact Or.inr ⟨c, hc, hcv⟩
  · intro config; rfl

/-- Witness for C4 at concrete inputs: under the default configuration a
`docs` commit is ignored, an unmapped `wild` type falls back to the
default `patch`, and a breaking commit of an ignored type still yields
`major`; the maximum rule holds on the concrete list
`[feat, docs-breaking]`. -/
theorem commit_classifier_contract_witness :
    getBumpTypeForCommit ("docs".data) true DEFAULT_CONFIG = BumpType.major ∧
    getBumpTypeForCommit ("docs".data) false DEFAULT_CONFIG = BumpType.none ∧
    getBumpTypeForCommit ("wild".data) false DEFAULT_CONFIG
      = DEFAULT_CONFIG.defaultBump ∧
    (bumpContribution DEFAULT_CONFIG ⟨"feat".data, false⟩).priority
      ≤ (calculateBumpFromCommits
          [⟨"feat".data, false⟩, ⟨"docs".data, true⟩] DEFAULT_CONFIG).priority :=
  ⟨commit_classifier_contract.1 ("docs".data) DEFAULT_CONFIG,
   commit_classifier_contract.2.1 ("docs".data) DEFAULT_CONFIG (by decide),
   commit_classifier_contract.2.2.1 ("wild".data) DEFAULT_CONFIG (by decide),
   commit_classifier_contract.2.2.2.1
     [⟨"feat".data, false⟩, ⟨"docs".data, true⟩] DEFAULT_CONFIG
     ⟨"feat".data, false⟩ (by simp)⟩

/-- Claim C10: the parse/format round trip.  `parseSemVer` keeps the raw
input (leading `v`, build metadata and all) and `formatSemVer` returns
exactly it, so every accepted string round-trips character for
character; strings the grammar rejects produce no version object at all
(the source throws `Invalid semantic version`), exemplified on the two
rejected inputs of the repository's own test suite. -/
theorem parse_format_round_trip :
    (∀ (s : List Char) (v : SemV), parseSemVer s = some v → formatSemVer v = s) ∧
    parseSemVer ("1.2".data) = Option.none ∧
    parseSemVer ("invalid".data) = Option.none := by
  refine ⟨?_, by decide, by decide⟩
  intro s v h
  unfold parseSemVer at h
  split at h
  · exact absurd h (by simp)
  · split at h
    · exact absurd h (by simp)
    · injection h with h1
      rw [← h1]
      rfl

/-- Witness for C10: the string `v1.2.3+build.1` is accepted and
round-trips to itself. -/
theorem parse_format_round_trip_witness :
    parseSemVer ("v1.2.3+build.1".data)
      = some ⟨1, 2, 3, [], ["build".data, "1".data], "v1.2.3+build.1".data⟩ ∧
    formatSemVer
        ⟨1, 2, 3, [], ["build".data, "1".data], "v1.2.3+build.1".data⟩
      = "v1.2.3+build.1".data :=
  ⟨by decide,
   parse_format_round_trip.1 ("v1.2.3+build.1".data) _ (by decide)⟩

/-- Claim C9: staging atomicity of `VersionManager.commit()`.  The
write-back strategy is invoked at most once per call; every invocation
receives the full staged batch; when the call succeeds nothing is pending
afterwards (`hasPendingUpdates` is false); and when the strategy fails
the staged state is exactly the state before the call, so a retry
re-attempts the identical batch. -/
theorem version_manager_commit_atomic
    (strategyOk : List (String × List Char) → Bool) (st : VMState) :
    (VersionManager.commit strategyOk st).calls.length ≤ 1 ∧
    (∀ b ∈ (VersionManager.commit strategyOk st).calls, b = commitBatch st) ∧
    ((VersionManager.commit strategyOk st).ok = true →
      hasPendingUpdates (VersionManager.commit strategyOk st).state = false) ∧
    ((VersionManager.commit strategyOk st).ok = false →
      (VersionManager.commit strategyOk st).state = st) := by
  unfold VersionManager.commit
  dsimp only
  split
  · next h =>
    refine ⟨by simp, by simp, ?_, by simp⟩
    intro _
    unfold hasPendingUpdates
    rw [Bool.and_eq_true] at h
    rw [h.1, h.2]
    rfl
  · split
    · refine ⟨by simp, ?_, ?_, by simp⟩
      · intro b hb
        simp only [List.mem_singleton] at hb
        exact hb
      · intro _; rfl
    · refine ⟨by simp, ?_, ?_, fun _ => rfl⟩
      · intro b hb
        simp only [List.mem_singleton] at hb
        exact hb
      · intro h
        exact absurd h (by simp)

/-- Witness for C9: with a failing strategy and one staged update, the
call reports failure and leaves the staged state untouched. -/
theorem version_manager_commit_atomic_witness :
    (VersionManager.commit (fun _ => false) exVMState).ok = false ∧
    (VersionManager.commit (fun _ => false) exVMState).state = exVMState :=
  ⟨by decide,
   (version_manager_commit_atomic (fun _ => false) exVMState).2.2.2 (by decide)⟩

theorem canonSemV_major (a b c : Nat) (p : List PreId) :
    (canonSemV a b c p).major = a := rfl

theorem canonSemV_minor (a b c : Nat) (p : List PreId) :
    (canonSemV a b c p).minor = b := rfl

theorem canonSemV_patch (a b c : Nat) (p : List PreId) :
    (canonSemV a b c p).patch = c := rfl

theorem canonSemV_prerelease (a b c : Nat) (p : List PreId) :
    (canonSemV a b c p).prerelease = p := rfl

theorem compareSemVer_major_lt {a b : SemV} (h : a.major < b.major) :
    compareSemVer a b = Ordering.lt := by
  unfold compareSemVer
  rw [Nat.compare_eq_lt.mpr h]

theorem compareSemVer_minor_lt {a b : SemV} (h1 : a.major = b.major)
    (h2 : a.minor < b.minor) : compareSemVer a b = Ordering.lt := by
  unfold compareSemVer
  rw [h1, Nat.compare_eq_eq.mpr rfl, Nat.compare_eq_lt.mpr h2]

theorem compareSemVer_patch_lt {a b : SemV} (h1 : a.major = b.major)
    (h2 : a.minor = b.minor) (h3 : a.patch < b.patch) :
    compareSemVer a b = Ordering.lt := by
  unfold compareSemVer
  rw [h1, Nat.compare_eq_eq.mpr rfl, h2, Nat.compare_eq_eq.mpr rfl,
    Nat.compare_eq_lt.mpr h3]

theorem compareSemVer_pre_lt {a b : SemV} (h1 : a.major = b.major)
    (h2 : a.minor = b.minor) (h3 : a.patch = b.patch)
    (h4 : a.prerelease ≠ []) (h5 : b.prerelease = []) :
    compareSemVer a b = Ordering.lt := by
  unfold compareSemVer
  rw [h1, Nat.compare_eq_eq.mpr rfl, h2, Nat.compare_eq_eq.mpr rfl, h3,
    Nat.compare_eq_eq.mpr rfl]
  unfold cmpPre
  rw [if_neg, if_neg, if_pos]
  · rw [h5]; rfl
  · rw [List.isEmpty_iff] at *
    intro hcontra
    exact h4 (by simpa using hcontra)
  · rw [Bool.and_eq_true]
    intro hcontra
    exact h4 (List.isEmpty_iff.mp hcontra.1)

theorem bumpSemVer_lt (v : SemV) (b : BumpType) (hb : b ≠ BumpType.none) :
    compareSemVer v (bumpSemVer v b) = Ordering.lt := by
  unfold bumpSemVer
  rw [if_neg hb]
  unfold semverInc
  cases b with
  | none => exact absurd rfl hb
  | patch =>
    by_cases hp : v.prerelease = []
    · rw [if_pos hp]
      exact compareSemVer_patch_lt rfl rfl (by rw [canonSemV_patch]; omega)
    · rw [if_neg hp]
      exact compareSemVer_pre_lt rfl rfl rfl hp (canonSemV_prerelease _ _ _ _)
  | minor =>
    by_cases hc : v.patch ≠ 0 ∨ v.prerelease = []
    · rw [if_pos hc]
      exact compareSemVer_minor_lt rfl (by rw [canonSemV_minor]; omega)
    · rw [if_neg hc]
      push_neg at hc
      exact compareSemVer_pre_lt rfl rfl (by rw [canonSemV_patch, hc.1])
        hc.2 (canonSemV_prerelease _ _ _ _)
  | major =>
    by_cases hc : v.minor ≠ 0 ∨ v.patch ≠ 0 ∨ v.prerelease = []
    · rw [if_pos hc]
      exact compareSemVer_major_lt (by rw [canonSemV_major]; omega)
    · rw [if_neg hc]
      push_neg at hc
      exact compareSemVer_pre_lt rfl (by rw [canonSemV_minor, hc.1])
        (by rw [canonSemV_patch, hc.2.1]) hc.2.2 (canonSemV_prerelease _ _ _ _)

theorem bumpToPrerelease_lt (v : SemV) (b : BumpType) (id : List Char)
    (hb : b ≠ BumpType.none) :
    compareSemVer v (bumpToPrerelease v b id) = Ordering.lt := by
  unfold bumpToPrerelease
  cases b with
  | none => exact absurd rfl hb
  | patch =>
    exact compareSemVer_patch_lt rfl rfl (by rw [canonSemV_patch]; omega)
  | minor =>
    exact compareSemVer_minor_lt rfl (by rw [canonSemV_minor]; omega)
  | major =>
    exact compareSemVer_major_lt (by rw [canonSemV_major]; omega)

theorem compareSemVer_addBuildMetadata (x y : SemV) (m : List Char) :
    compareSemVer x (addBuildMetadata y m) = compareSemVer x y := rfl

/-- Claim C6: version monotonicity.  For every decision with a pending
change and a resolved bump type other than `none`, the version computed
by the runner (covering both the plain-release branch via `bumpSemVer`
and the pre-release branch via `bumpToPrerelease`, with or without the
build-metadata step) is strictly greater than `fromVersion` under
semantic-version precedence. -/
theorem runner_version_monotonic (opts : RunnerOptions)
    (shortSha : Option (List Char)) (effId : List Char)
    (change : ProcessingModuleChange)
    (hp : change.needsProcessing = true)
    (hb : change.bumpType ≠ BumpType.none) :
    compareSemVer change.fromVersion
      (computeNewVersion opts shortSha effId change) = Ordering.lt := by
  have hcore : compareSemVer change.fromVersion
      (computeCore opts effId change) = Ordering.lt := by
    unfold computeCore
    by_cases hpm : opts.prereleaseMode = true
    · rw [if_pos ⟨hb, hpm⟩]
      exact bumpToPrerelease_lt _ _ _ hb
    · rw [if_neg, if_pos ⟨hb, Bool.eq_false_iff.mpr hpm⟩]
      · exact bumpSemVer_lt _ _ hb
      · intro hcontra
        exact hpm hcontra.2
  unfold computeNewVersion
  rw [if_pos hp]
  dsimp only
  cases shortSha with
  | none => exact hcore
  | some m =>
    dsimp only
    by_cases hmeta : opts.addBuildMetadata = true
    · rw [if_pos hmeta, compareSemVer_addBuildMetadata]
      exact hcore
    · rw [if_neg hmeta]
      exact hcore

/-- Witness for C6: a pending patch decision from 1.2.3 in plain mode
computes a strictly greater version. -/
theorem runner_version_monotonic_witness :
    exChgC6.needsProcessing = true ∧ exChgC6.bumpType ≠ BumpType.none ∧
    compareSemVer exChgC6.fromVersion
      (computeNewVersion exOptsPlain Option.none ("alpha".data) exChgC6)
      = Ordering.lt :=
  ⟨rfl, by decide,
   runner_version_monotonic exOptsPlain Option.none ("alpha".data) exChgC6
     rfl (by decide)⟩

/-- Claim C7: pre-release numbering.  With bump `none` (the
force-unchanged path): a version whose pre-release tag is
`<id>.<n>` for the configured identifier gets its counter incremented to
`<id>.<n+1>` with the numeric core untouched; a version with no
pre-release tag gets an implicit patch bump and the fresh suffix
`-<id>.0`; a version carrying a different identifier restarts at
`-<id>.0` on the same core.  In particular the scenario module at
`1.2.4-alpha.0` with no commits, pre-release mode and `bumpUnchanged` on
computes `toVersion = "1.2.4-alpha.1"` through the runner stage. -/
theorem prerelease_numbering :
    (∀ (ma mi pa n : Nat) (id : List Char),
      bumpToPrerelease (canonSemV ma mi pa [PreId.str id, PreId.num n])
          BumpType.none id
        = canonSemV ma mi pa [PreId.str id, PreId.num (n + 1)]) ∧
    (∀ (ma mi pa : Nat) (id : List Char), id ≠ [] →
      bumpToPrerelease (canonSemV ma mi pa []) BumpType.none id
        = canonSemV ma mi (pa + 1) [PreId.str id, PreId.num 0]) ∧
    (∀ (ma mi pa : Nat) (s : List Char) (rest : List PreId) (id : List Char),
      s ≠ id → id ≠ [] →
      bumpToPrerelease (canonSemV ma mi pa (PreId.str s :: rest))
          BumpType.none id
        = canonSemV ma mi pa [PreId.str id, PreId.num 0]) ∧
    (applyVersionCalculation exOptsC7 Option.none ("alpha".data) exChgC7).toVersion
      = "1.2.4-alpha.1".data := by
  refine ⟨?_, ?_, ?_, by decide⟩
  · intro ma mi pa n id
    by_cases hid : id.isEmpty
    · simp [bumpToPrerelease, preStep, incLastNumeric, canonSemV, hid]
    · simp [bumpToPrerelease, preStep, incLastNumeric, canonSemV, hid]
  · intro ma mi pa id hid
    have hid2 : id.isEmpty = false := by
      cases id with
      | nil => exact absurd rfl hid
      | cons c cs => rfl
    cases hm : (isDigits id && (digitsVal id == 0)) <;>
      simp [bumpToPrerelease, preStep, incLastNumeric, semverInc, canonSemV,
        hid2, hm]
  · intro ma mi pa s rest id hs hid
    have hid2 : id.isEmpty = false := by
      cases id with
      | nil => exact absurd rfl hid
      | cons c cs => rfl
    have hs2 : (s == id) = false := by
      rw [beq_eq_false_iff_ne]
      exact hs
    cases hr : (incLastNumeric rest).2 <;>
      simp [bumpToPrerelease, preStep, incLastNumeric, canonSemV, hid2, hs2, hr]

/-- Witness for C7: concrete instances of the counter-increment rule and
of the restart-at-zero rule for a different identifier. -/
theorem prerelease_numbering_witness :
    bumpToPrerelease (canonSemV 1 2 4 [PreId.str ("alpha".data), PreId.num 0])
        BumpType.none ("alpha".data)
      = canonSemV 1 2 4 [PreId.str ("alpha".data), PreId.num 1] ∧
    ("beta".data ≠ "alpha".data ∧
      bumpToPrerelease (canonSemV 1 0 0 [PreId.str ("beta".data), PreId.num 5])
          BumpType.none ("alpha".data)
        = canonSemV 1 0 0 [PreId.str ("alpha".data), PreId.num 0]) :=
  ⟨prerelease_numbering.1 1 2 4 0 ("alpha".data),
   by decide,
   prerelease_numbering.2.2.1 1 0 0 ("beta".data) [PreId.num 5] ("alpha".data)
     (by decide) (by decide)⟩

theorem snapshot_suffix_cons : SNAPSHOT_SUFFIX = '-' :: "SNAPSHOT".data := by
  decide

/-- A string of the shape `base ++ "+" ++ m` never ends in `-SNAPSHOT`
unless `m` itself does: the suffix would have to contain the `'+'`, but
`-SNAPSHOT` has no `'+'`. -/
theorem snapshot_not_suffix_of_plus (base m : List Char)
    (hm : jsEndsWith m SNAPSHOT_SUFFIX = false) :
    jsEndsWith (base ++ '+' :: m) SNAPSHOT_SUFFIX = false := by
  unfold jsEndsWith at *
  rw [Bool.eq_false_iff]
  intro hcontra
  have h1 : SNAPSHOT_SUFFIX <:+ base ++ '+' :: m :=
    List.isSuffixOf_iff_suffix.mp hcontra
  have h2 : ('+' :: m) <:+ base ++ '+' :: m := List.suffix_append _ _
  rcases List.suffix_or_suffix_of_suffix h1 h2 with h | h
  · rcases List.suffix_cons_iff.mp h with h | h
    · rw [snapshot_suffix_cons] at h
      injection h with h3 h4
      exact absurd h3 (by decide)
    · have : SNAPSHOT_SUFFIX.isSuffixOf m = true :=
        List.isSuffixOf_iff_suffix.mpr h
      rw [this] at hm
      exact absurd hm (by decide)
  · have hmem : '+' ∈ SNAPSHOT_SUFFIX :=
      h.sublist.subset (List.mem_cons_self _ _)
    exact absurd hmem (by decide)

/-- Counterexample to C2 as stated: with build metadata and the Gradle
snapshot mode both enabled, a patch decision from 1.0.0 with sha
`a1b2c3d` computes `toVersion = "1.0.1+a1b2c3d-SNAPSHOT"` — the snapshot
suffix is appended after the metadata, so the metadata is not the last
stage and `toVersion` does not end with the metadata. -/
theorem build_metadata_not_last_counterexample :
    (applyVersionCalculation exOptsC2 (some ("a1b2c3d".data)) ("alpha".data)
        exChgC2).toVersion
      = "1.0.1+a1b2c3d-SNAPSHOT".data ∧
    jsEndsWith
      (applyVersionCalculation exOptsC2 (some ("a1b2c3d".data)) ("alpha".data)
        exChgC2).toVersion
      ("+a1b2c3d".data) = false := by
  refine ⟨by decide, by decide⟩

/-- Claim C2 (amended): the build metadata is appended before the
ecosystem-snapshot stage, not after it.  When both modes are enabled,
for every decision with a pending change (and a metadata value not itself
ending in `-SNAPSHOT`) the computed `toVersion` is
`<version>+<metadata>-SNAPSHOT`: the metadata sits inside the string and
the snapshot suffix comes last. -/
theorem build_metadata_before_snapshot (opts : RunnerOptions)
    (effId m : List Char) (change : ProcessingModuleChange)
    (hmeta : opts.addBuildMetadata = true) (hsnap : opts.gradleSnapshot = true)
    (hadapter : opts.adapter = "gradle".data)
    (hp : change.needsProcessing = true)
    (hm : jsEndsWith m SNAPSHOT_SUFFIX = false) :
    (applyVersionCalculation opts (some m) effId change).toVersion
      = (versionStr (computeCore opts effId change) ++ '+' :: m)
          ++ SNAPSHOT_SUFFIX := by
  have hnv : computeNewVersion opts (some m) effId change
      = addBuildMetadata (computeCore opts effId change) m := by
    unfold computeNewVersion
    rw [if_pos hp]
    dsimp only
    rw [if_pos hmeta]
  unfold applyVersionCalculation
  rw [hnv]
  dsimp only
  rw [if_pos ⟨hsnap, hadapter⟩]
  have hfmt : formatSemVer (addBuildMetadata (computeCore opts effId change) m)
      = versionStr (computeCore opts effId change) ++ '+' :: m := rfl
  rw [hfmt]
  rw [applyGradleSnapshot_of_not_endsWith _
    (snapshot_not_suffix_of_plus _ m hm)]
  split
  · rfl
  · rfl

/-- Witness for the amended C2 at the concrete counterexample data. -/
theorem build_metadata_before_snapshot_witness :
    (applyVersionCalculation exOptsC2 (some ("a1b2c3d".data)) ("alpha".data)
        exChgC2).toVersion
      = (versionStr (computeCore exOptsC2 ("alpha".data) exChgC2)
          ++ '+' :: "a1b2c3d".data) ++ SNAPSHOT_SUFFIX :=
  build_metadata_before_snapshot exOptsC2 ("alpha".data) ("a1b2c3d".data)
    exChgC2 rfl rfl rfl rfl (by decide)

/-- Counterexample to C3 as stated: a module with no pending change whose
version is already `1.0.0-SNAPSHOT` is *not* flipped to
`needsProcessing = true` by the snapshot stage (the suffix test finds the
string unchanged), so the claim's unconditional flip is false. -/
theorem snapshot_no_flip_counterexample :
    ¬ ((applyVersionCalculation exOptsC3 Option.none ("alpha".data)
        exChgC3).needsProcessing = true) := by
  decide

/-- Claim C3 (amended): with the ecosystem-snapshot mode enabled, a
module with no pending change is flipped to `needsProcessing = true`
(with reason `gradle-snapshot` and the suffix appended to `toVersion`)
exactly when the snapshot suffix actually changed the string, i.e. when
the module's version did not already end in `-SNAPSHOT`; a version
already carrying the suffix stays unstaged and unchanged. -/
theorem snapshot_flips_needs_processing (opts : RunnerOptions)
    (shortSha : Option (List Char)) (effId : List Char)
    (change : ProcessingModuleChange)
    (hsnap : opts.gradleSnapshot = true)
    (hadapter : opts.adapter = "gradle".data)
    (hp : change.needsProcessing = false) :
    (jsEndsWith change.fromVersion.raw SNAPSHOT_SUFFIX = false →
      (applyVersionCalculation opts shortSha effId change).needsProcessing
          = true ∧
      (applyVersionCalculation opts shortSha effId change).reason
          = Reason.gradleSnapshot ∧
      (applyVersionCalculation opts shortSha effId change).toVersion
          = change.fromVersion.raw ++ SNAPSHOT_SUFFIX) ∧
    (jsEndsWith change.fromVersion.raw SNAPSHOT_SUFFIX = true →
      (applyVersionCalculation opts shortSha effId change).needsProcessing
          = false ∧
      (applyVersionCalculation opts shortSha effId change).toVersion
          = change.fromVersion.raw) := by
  have hnv : computeNewVersion opts shortSha effId change = change.fromVersion := by
    unfold computeNewVersion
    rw [if_neg]
    rw [hp]
    exact Bool.false_ne_true
  constructor
  · intro hends
    unfold applyVersionCalculation
    rw [hnv]
    dsimp only
    rw [if_pos ⟨hsnap, hadapter⟩]
    have hfmt : formatSemVer change.fromVersion = change.fromVersion.raw := rfl
    rw [hfmt, applyGradleSnapshot_of_not_endsWith _ hends]
    rw [if_pos]
    · exact ⟨rfl, rfl, rfl⟩
    · refine ⟨hp, ?_⟩
      intro hcontra
      have := congrArg List.length hcontra
      rw [List.length_append] at this
      have hS : SNAPSHOT_SUFFIX.length = 9 := by decide
      omega
  · intro hends
    unfold applyVersionCalculation
    rw [hnv]
    dsimp only
    rw [if_pos ⟨hsnap, hadapter⟩]
    have hfmt : formatSemVer change.fromVersion = change.fromVersion.raw := rfl
    rw [hfmt, applyGradleSnapshot_of_endsWith _ hends]
    rw [if_neg]
    · exact ⟨hp, rfl⟩
    · intro hcontra
      exact hcontra.2 rfl

/-- Witness for the amended C3: an unchanged module at plain `2.0.0` is
flipped and staged with `toVersion = "2.0.0-SNAPSHOT"`, while the module
already at `1.0.0-SNAPSHOT` stays unstaged. -/
theorem snapshot_flips_needs_processing_witness :
    ((applyVersionCalculation exOptsC3 Option.none ("alpha".data)
        exChgC3b).needsProcessing = true ∧
      (applyVersionCalculation exOptsC3 Option.none ("alpha".data)
        exChgC3b).reason = Reason.gradleSnapshot ∧
      (applyVersionCalculation exOptsC3 Option.none ("alpha".data)
        exChgC3b).toVersion = exChgC3b.fromVersion.raw ++ SNAPSHOT_SUFFIX) ∧
    ((applyVersionCalculation exOptsC3 Option.none ("alpha".data)
        exChgC3).needsProcessing = false ∧
      (applyVersionCalculation exOptsC3 Option.none ("alpha".data)
        exChgC3).toVersion = exChgC3.fromVersion.raw) :=
  ⟨(snapshot_flips_needs_processing exOptsC3 Option.none ("alpha".data)
      exChgC3b rfl rfl rfl).1 (by decide),
   (snapshot_flips_needs_processing exOptsC3 Option.none ("alpha".data)
      exChgC3 rfl rfl rfl).2 (by decide)⟩

theorem mapUpdate_keys {α : Type} (k : String) (v : α)
    (m : List (String × α)) :
    (mapUpdate k v m).map Prod.fst = m.map Prod.fst := by
  induction m with
  | nil => rfl
  | cons p t ih =>
    unfold mapUpdate at *
    by_cases hk : p.1 = k
    · simp only [List.map_cons, if_pos hk, ih]
      rw [hk]
    · simp only [List.map_cons, if_neg hk, ih]

theorem mapUpdate_of_not_mem {α : Type} (k : String) (v : α)
    (m : List (String × α)) (h : k ∉ m.map Prod.fst) : mapUpdate k v m = m := by
  induction m with
  | nil => rfl
  | cons p t ih =>
    unfold mapUpdate at *
    have h1 : ¬ p.1 = k := by
      intro hc
      exact h (by rw [List.map_cons, hc]; exact List.mem_cons_self _ _)
    simp only [List.map_cons, if_neg h1]
    rw [ih (fun hc => h (by rw [List.map_cons]; exact List.mem_cons_of_mem _ hc))]

theorem lookup_mapUpdate_ne {α : Type} (k id : String) (v : α)
    (m : List (String × α)) (h : id ≠ k) :
    (mapUpdate k v m).lookup id = m.lookup id := by
  induction m with
  | nil => rfl
  | cons p t ih =>
    unfold mapUpdate at *
    by_cases hk : p.1 = k
    · simp only [List.map_cons, if_pos hk]
      rw [List.lookup_cons, List.lookup_cons]
      have hbk : (id == k) = false := beq_eq_false_iff_ne.mpr h
      have hbp : (id == p.1) = false :=
        beq_eq_false_iff_ne.mpr (fun hc => h (hc.trans hk))
      rw [hbk, hbp]
      exact ih
    · simp only [List.map_cons, if_neg hk]
      rcases p with ⟨pk, pv⟩
      rw [List.lookup_cons, List.lookup_cons]
      cases hbeq : id == pk
      · exact ih
      · rfl

theorem lookup_mapUpdate_self {α : Type} (k : String) (v : α) (ec : α)
    (m : List (String × α)) (h : m.lookup k = some ec) :
    (mapUpdate k v m).lookup k = some v := by
  induction m with
  | nil => simp at h
  | cons p t ih =>
    unfold mapUpdate at *
    by_cases hk : p.1 = k
    · simp only [List.map_cons, if_pos hk]
      exact List.lookup_cons_self
    · simp only [List.map_cons, if_neg hk]
      rcases p with ⟨pk, pv⟩
      rw [List.lookup_cons] at h ⊢
      cases hbeq : k == pk
      · rw [hbeq] at h
        exact ih h
      · exact absurd (LawfulBEq.eq_of_beq hbeq) (fun hc => hk hc.symm)

theorem bumpLe_refl (m : List (String × ProcessingModuleChange)) :
    BumpLe m m :=
  fun _ c h => ⟨c, h, Nat.le_refl _⟩

theorem bumpLe_trans {a b c : List (String × ProcessingModuleChange)}
    (h1 : BumpLe a b) (h2 : BumpLe b c) : BumpLe a c := by
  intro id x hx
  rcases h1 id x hx with ⟨y, hy, hxy⟩
  rcases h2 id y hy with ⟨z, hz, hyz⟩
  exact ⟨z, hz, Nat.le_trans hxy hyz⟩

theorem priority_le_maxpair (a b : BumpType) :
    a.priority ≤ (maxBumpType [a, b]).priority := by
  cases a <;> cases b <;> decide

theorem maxpair_priority_le (a b : BumpType) :
    (maxBumpType [a, b]).priority ≤ max a.priority b.priority := by
  cases a <;> cases b <;> decide

theorem maxpair_ne_left (a b : BumpType) (h : maxBumpType [a, b] ≠ a) :
    a.priority < (maxBumpType [a, b]).priority := by
  revert h
  cases a <;> cases b <;> decide

theorem priority_le_three (a : BumpType) : a.priority ≤ 3 := by
  cases a <;> decide

theorem bumpLe_mapUpdate (m : List (String × ProcessingModuleChange))
    (k : String) (ec v : ProcessingModuleChange)
    (hlk : m.lookup k = some ec)
    (hb : ec.bumpType.priority ≤ v.bumpType.priority) :
    BumpLe m (mapUpdate k v m) := by
  intro id c h
  by_cases hik : id = k
  · subst hik
    rw [h] at hlk
    injection hlk with he
    subst he
    exact ⟨v, lookup_mapUpdate_self _ _ _ _ h, hb⟩
  · refine ⟨c, ?_, Nat.le_refl _⟩
    rw [lookup_mapUpdate_ne _ _ _ _ hik]
    exact h

theorem cascadeVisit_bumpLe (rule : BumpType → BumpType) (cb : BumpType)
    (processed : List String)
    (acc : List (String × ProcessingModuleChange) × List String)
    (d : String) :
    BumpLe acc.1 (cascadeVisit rule cb processed acc d).1 := by
  unfold cascadeVisit
  split
  · exact bumpLe_refl _
  · split
    · exact bumpLe_refl _
    · next existingChange hlk =>
      dsimp only
      split
      · exact bumpLe_refl _
      · split
        · exact bumpLe_mapUpdate _ _ _ _ hlk (priority_le_maxpair _ _)
        · exact bumpLe_refl _

theorem cascadeInner_bumpLe (rule : BumpType → BumpType) (cb : BumpType)
    (processed : List String) (deps : List String)
    (mp : List (String × ProcessingModuleChange)) :
    BumpLe mp (cascadeInner rule cb processed deps mp).1 := by
  unfold cascadeInner
  suffices h : ∀ (ds : List String)
      (acc : List (String × ProcessingModuleChange) × List String),
      BumpLe mp acc.1 →
      BumpLe mp (ds.foldl (cascadeVisit rule cb processed) acc).1 by
    exact h deps (mp, []) (bumpLe_refl mp)
  intro ds
  induction ds with
  | nil => intro acc hacc; exact hacc
  | cons d ds ih =>
    intro acc hacc
    exact ih _ (bumpLe_trans hacc (cascadeVisit_bumpLe rule cb processed acc d))

theorem cascadeStep_bumpLe (affects : String → List String)
    (rule : BumpType → BumpType) (s : CascadeState) :
    BumpLe s.moduleMap (cascadeStep affects rule s).moduleMap := by
  unfold cascadeStep
  split
  · exact bumpLe_refl _
  · split
    · exact bumpLe_refl _
    · split
      · exact bumpLe_refl _
      · exact cascadeInner_bumpLe _ _ _ _ _

theorem cascadeRun_bumpLe (affects : String → List String)
    (rule : BumpType → BumpType) :
    ∀ (fuel : Nat) (s : CascadeState),
      BumpLe s.moduleMap (cascadeRun affects rule fuel s).moduleMap := by
  intro fuel
  induction fuel with
  | zero => intro s; exact bumpLe_refl _
  | succ n ih =>
    intro s
    unfold cascadeRun
    split
    · exact bumpLe_refl _
    · exact bumpLe_trans (cascadeStep_bumpLe affects rule s) (ih _)

/-- Counterexample to C1 as stated: on the graph where module `a` affects
module `c`, with `a` holding a major bump and `c` a patch bump of its own
and the default dependency rule (major of dependency gives minor), running
`calculateCascadeEffects` on the order `[a, c]` leaves `c` at `minor`,
but on the permuted order `[c, a]` module `c` is popped (and marked
processed) before `a`'s pressure arrives, the pressure is skipped, and
`c` ends at `patch` — the final bump type depends on the order of the
initial decision array. -/
theorem cascade_order_dependence_counterexample :
    ((calculateCascadeEffects exAffects exRule [exChgA, exChgC]).find?
        (fun c => c.id == "c")).map (fun c => c.bumpType)
      = some BumpType.minor ∧
    ((calculateCascadeEffects exAffects exRule [exChgC, exChgA]).find?
        (fun c => c.id == "c")).map (fun c => c.bumpType)
      = some BumpType.patch ∧
    BumpType.minor ≠ BumpType.patch := by
  refine ⟨by decide, by decide, by decide⟩

/-- Claim C1 (amended): the merge `maxBumpType` used by the cascade is
commutative and associative (so pressures merged onto a not-yet-processed
module combine to the maximum regardless of arrival order), and cascade
propagation only ever raises a module's bump type — every decision of the
initial map survives to the final map with a bump type of at least its
initial priority.  Full order-independence of the final bump types does
not hold: pressure onto an already-processed module is skipped, so
permuting the initial decision array can change the result (see the
counterexample). -/
theorem cascade_merge_max_and_monotone :
    (∀ a b : BumpType, maxBumpType [a, b] = maxBumpType [b, a]) ∧
    (∀ a b c : BumpType,
      maxBumpType [maxBumpType [a, b], c]
        = maxBumpType [a, maxBumpType [b, c]]) ∧
    (∀ (affects : String → List String) (rule : BumpType → BumpType)
        (chgs : List ProcessingModuleChange) (fuel : Nat) (id : String)
        (c : ProcessingModuleChange),
      (initCascadeState chgs).moduleMap.lookup id = some c →
      ∃ c', (cascadeRun affects rule fuel
              (initCascadeState chgs)).moduleMap.lookup id = some c' ∧
        c.bumpType.priority ≤ c'.bumpType.priority) := by
  refine ⟨?_, ?_, ?_⟩
  · intro a b; cases a <;> cases b <;> decide
  · intro a b c; cases a <;> cases b <;> cases c <;> decide
  · intro affects rule chgs fuel id c h
    exact cascadeRun_bumpLe affects rule fuel (initCascadeState chgs) id c h

/-- Witness for the amended C1: on the counterexample graph, module `c`'s
initial patch decision survives five iterations with a bump type of at
least priority 1. -/
theorem cascade_merge_max_and_monotone_witness :
    ∃ c', (cascadeRun exAffects exRule 5
            (initCascadeState [exChgA, exChgC])).moduleMap.lookup "c"
          = some c' ∧
      exChgC.bumpType.priority ≤ c'.bumpType.priority :=
  cascade_merge_max_and_monotone.2.2 exAffects exRule [exChgA, exChgC] 5 "c"
    exChgC (by decide)

theorem cascadePot_cons (p : String × ProcessingModuleChange)
    (t : List (String × ProcessingModuleChange)) :
    cascadePot (p :: t) = cascadePhi p.2 + cascadePot t := by
  unfold cascadePot
  rw [List.map_cons, List.sum_cons]

theorem mapUpdate_cons_eq {α : Type} (k : String) (v pv : α)
    (t : List (String × α)) :
    mapUpdate k v ((k, pv) :: t) = (k, v) :: mapUpdate k v t := by
  unfold mapUpdate
  simp

theorem mapUpdate_cons_ne {α : Type} (k : String) (v : α) (p : String × α)
    (t : List (String × α)) (h : ¬ p.1 = k) :
    mapUpdate k v (p :: t) = p :: mapUpdate k v t := by
  unfold mapUpdate
  simp [h]

theorem cascadePot_mapUpdate (k : String)
    (v ec : ProcessingModuleChange)
    (m : List (String × ProcessingModuleChange))
    (hnd : (m.map Prod.fst).Nodup) (h : m.lookup k = some ec) :
    cascadePot (mapUpdate k v m) + cascadePhi ec
      = cascadePot m + cascadePhi v := by
  induction m with
  | nil => simp at h
  | cons p t ih =>
    rcases p with ⟨pk, pv⟩
    rw [List.map_cons, List.nodup_cons] at hnd
    by_cases hk : pk = k
    · subst hk
      rw [List.lookup_cons_self] at h
      injection h with he
      subst he
      rw [mapUpdate_cons_eq, mapUpdate_of_not_mem pk v t hnd.1,
        cascadePot_cons, cascadePot_cons]
      dsimp only
      omega
    · have hlk : t.lookup k = some ec := by
        rw [List.lookup_cons] at h
        rwa [show (k == pk) = false from
          beq_eq_false_iff_ne.mpr (fun hc => hk hc.symm)] at h
      rw [mapUpdate_cons_ne k v (pk, pv) t hk, cascadePot_cons, cascadePot_cons]
      have := ih hnd.2 hlk
      omega

theorem cascadePhi_push_le (ec : ProcessingModuleChange) (req : BumpType)
    (hcond : maxBumpType [ec.bumpType, req] ≠ ec.bumpType ∨
      ec.needsProcessing = false) :
    cascadePhi { ec with
        bumpType := maxBumpType [ec.bumpType, req]
        reason := Reason.cascade
        needsProcessing := true } + 1
      ≤ cascadePhi ec := by
  unfold cascadePhi
  dsimp only
  rcases hcond with h | h
  · have h1 := maxpair_ne_left _ _ h
    have h2 := priority_le_three (maxBumpType [ec.bumpType, req])
    rw [if_pos rfl]
    cases hnp : ec.needsProcessing
    · rw [if_neg Bool.false_ne_true]
      omega
    · rw [if_pos rfl]
      omega
  · have h1 := priority_le_maxpair ec.bumpType req
    rw [h, if_pos rfl, if_neg Bool.false_ne_true]
    omega

theorem cascadeVisit_keys (rule : BumpType → BumpType) (cb : BumpType)
    (processed : List String)
    (acc : List (String × ProcessingModuleChange) × List String)
    (d : String) :
    ((cascadeVisit rule cb processed acc d).1).map Prod.fst
      = acc.1.map Prod.fst := by
  unfold cascadeVisit
  split
  · rfl
  · split
    · rfl
    · dsimp only
      split
      · rfl
      · split
        · exact mapUpdate_keys _ _ _
        · rfl

theorem cascadeVisit_pushes (rule : BumpType → BumpType) (cb : BumpType)
    (processed : List String)
    (acc : List (String × ProcessingModuleChange) × List String)
    (d : String) (mp0 : List (String × ProcessingModuleChange))
    (hnd : (acc.1.map Prod.fst).Nodup)
    (hpot : cascadePot acc.1 + acc.2.length ≤ cascadePot mp0) :
    cascadePot (cascadeVisit rule cb processed acc d).1
        + ((cascadeVisit rule cb processed acc d).2).length
      ≤ cascadePot mp0 := by
  unfold cascadeVisit
  split
  · exact hpot
  · split
    · exact hpot
    · next existingChange hlk =>
      dsimp only
      split
      · exact hpot
      · split
        · next hcond =>
          dsimp only
          have hupd := cascadePot_mapUpdate d
            { existingChange with
              bumpType := maxBumpType [existingChange.bumpType, rule cb]
              reason := Reason.cascade
              needsProcessing := true }
            existingChange acc.1 hnd hlk
          have hphi := cascadePhi_push_le existingChange (rule cb) hcond
          rw [List.length_append, List.length_cons, List.length_nil]
          omega
        · exact hpot

theorem cascadeInner_keys (rule : BumpType → BumpType) (cb : BumpType)
    (processed : List String) (deps : List String)
    (mp : List (String × ProcessingModuleChange)) :
    ((cascadeInner rule cb processed deps mp).1).map Prod.fst
      = mp.map Prod.fst := by
  unfold cascadeInner
  suffices h : ∀ (ds : List String)
      (acc : List (String × ProcessingModuleChange) × List String),
      ((ds.foldl (cascadeVisit rule cb processed) acc).1).map Prod.fst
        = acc.1.map Prod.fst by
    exact h deps (mp, [])
  intro ds
  induction ds with
  | nil => intro acc; rfl
  | cons d dt ih =>
    intro acc
    rw [List.foldl_cons, ih, cascadeVisit_keys]

theorem cascadeInner_measure (rule : BumpType → BumpType) (cb : BumpType)
    (processed : List String) (deps : List String)
    (mp : List (String × ProcessingModuleChange))
    (hnd : (mp.map Prod.fst).Nodup) :
    cascadePot (cascadeInner rule cb processed deps mp).1
        + ((cascadeInner rule cb processed deps mp).2).length
      ≤ cascadePot mp := by
  unfold cascadeInner
  suffices h : ∀ (ds : List String)
      (acc : List (String × ProcessingModuleChange) × List String),
      (acc.1.map Prod.fst) = mp.map Prod.fst →
      cascadePot acc.1 + acc.2.length ≤ cascadePot mp →
      cascadePot (ds.foldl (cascadeVisit rule cb processed) acc).1
          + ((ds.foldl (cascadeVisit rule cb processed) acc).2).length
        ≤ cascadePot mp by
    exact h deps (mp, []) rfl (Nat.le_refl _)
  intro ds
  induction ds with
  | nil => intro acc _ hpot; exact hpot
  | cons d dt ih =>
    intro acc hkeys hpot
    rw [List.foldl_cons]
    refine ih _ ?_ ?_
    · rw [cascadeVisit_keys]
      exact hkeys
    · exact cascadeVisit_pushes rule cb processed acc d mp
        (hkeys ▸ hnd) hpot

theorem cascadeStep_keys (affects : String → List String)
    (rule : BumpType → BumpType) (s : CascadeState) :
    ((cascadeStep affects rule s).moduleMap).map Prod.fst
      = s.moduleMap.map Prod.fst := by
  unfold cascadeStep
  split
  · rfl
  · split
    · rfl
    · split
      · rfl
      · exact cascadeInner_keys _ _ _ _ _

theorem cascadeStep_measure (affects : String → List String)
    (rule : BumpType → BumpType) (s : CascadeState)
    (hnd : (s.moduleMap.map Prod.fst).Nodup) (hq : s.queue ≠ []) :
    cascadeMeasure (cascadeStep affects rule s) < cascadeMeasure s := by
  unfold cascadeMeasure cascadeStep
  cases hqe : s.queue with
  | nil => exact absurd hqe hq
  | cons currentId rest =>
    dsimp only
    split
    · dsimp only
      rw [List.length_cons]
      omega
    · next currentChange hlk =>
      split
      · dsimp only
        rw [List.length_cons]
        omega
      · dsimp only
        have hinner := cascadeInner_measure rule currentChange.bumpType
          (s.processed ++ [currentId]) (affects currentId) s.moduleMap hnd
        rw [List.length_cons, List.length_append]
        omega

theorem initCascadeState_nodup (chgs : List ProcessingModuleChange) :
    (((initCascadeState chgs).moduleMap).map Prod.fst).Nodup := by
  unfold initCascadeState
  dsimp only
  suffices h : ∀ (l : List ProcessingModuleChange)
      (acc : List (String × ProcessingModuleChange)),
      ((acc.map Prod.fst).Nodup) →
      (((l.foldl (fun acc c => mapSet c.id c acc) acc).map Prod.fst).Nodup) by
    exact h chgs [] List.nodup_nil
  intro l
  induction l with
  | nil => intro acc hacc; exact hacc
  | cons c ct ih =>
    intro acc hacc
    rw [List.foldl_cons]
    refine ih _ ?_
    unfold mapSet
    split
    · next hany =>
      have : (acc.map (fun p => if p.1 = c.id then (c.id, c) else p)).map Prod.fst
          = acc.map Prod.fst := by
        rw [List.map_map]
        refine List.map_congr_left ?_
        intro p hp
        by_cases hpk : p.1 = c.id
        · simp only [Function.comp, if_pos hpk]
          exact hpk.symm
        · simp only [Function.comp, if_neg hpk]
      rw [this]
      exact hacc
    · next hany =>
      have hnotmem : c.id ∉ acc.map Prod.fst := by
        intro hmem
        rcases List.mem_map.mp hmem with ⟨p, hp, hpk⟩
        refine hany (List.any_eq_true.mpr ⟨p, hp, ?_⟩)
        rw [hpk]
        simp
      rw [List.map_append, List.nodup_append]
      refine ⟨hacc, ?_, ?_⟩
      · dsimp only [List.map_cons, List.map_nil]
        exact List.nodup_singleton _
      · intro x hx hx2
        dsimp only [List.map_cons, List.map_nil] at hx2
        rw [List.mem_singleton] at hx2
        subst hx2
        exact hnotmem hx

theorem cascadeRun_drains (affects : String → List String)
    (rule : BumpType → BumpType) :
    ∀ (fuel : Nat) (s : CascadeState),
      (s.moduleMap.map Prod.fst).Nodup → cascadeMeasure s ≤ fuel →
      (cascadeRun affects rule fuel s).queue = [] := by
  intro fuel
  induction fuel with
  | zero =>
    intro s _ hm
    unfold cascadeMeasure at hm
    have hlen : s.queue.length = 0 := by omega
    unfold cascadeRun
    exact List.length_eq_zero.mp hlen
  | succ n ih =>
    intro s hnd hm
    unfold cascadeRun
    split
    · next h => exact h
    · next a t h =>
      refine ih _ ?_ ?_
      · rw [cascadeStep_keys]
        exact hnd
      · have hlt := cascadeStep_measure affects rule s hnd
          (by rw [h]; exact List.cons_ne_nil a t)
        omega

theorem cascadeRun_queue_nil (affects : String → List String)
    (rule : BumpType → BumpType) (n : Nat) (s : CascadeState)
    (h : s.queue = []) : cascadeRun affects rule n s = s := by
  cases n with
  | zero => rfl
  | succ k =>
    unfold cascadeRun
    split
    · rfl
    · next a t h2 =>
      rw [h] at h2
      exact absurd h2.symm (List.cons_ne_nil a t)

theorem cascadeRun_succ_cons (affects : String → List String)
    (rule : BumpType → BumpType) (k : Nat) (s : CascadeState)
    (hq : s.queue ≠ []) :
    cascadeRun affects rule (k + 1) s
      = cascadeRun affects rule k (cascadeStep affects rule s) := by
  conv_lhs => rw [cascadeRun]
  split
  · next h => exact absurd h hq
  · rfl

theorem cascadeRun_add (affects : String → List String)
    (rule : BumpType → BumpType) :
    ∀ (a b : Nat) (s : CascadeState),
      cascadeRun affects rule (a + b) s
        = cascadeRun affects rule b (cascadeRun affects rule a s) := by
  intro a
  induction a with
  | zero =>
    intro b s
    rw [Nat.zero_add]
    rfl
  | succ n ih =>
    intro b s
    by_cases hq : s.queue = []
    · rw [cascadeRun_queue_nil _ _ _ _ hq, cascadeRun_queue_nil _ _ _ _ hq,
        cascadeRun_queue_nil _ _ _ _ hq]
    · have hstep : Nat.succ n + b = (n + b) + 1 := by omega
      rw [hstep, cascadeRun_succ_cons affects rule (n + b) s hq,
        cascadeRun_succ_cons affects rule n s hq]
      exact ih b (cascadeStep affects rule s)

/-- Claim C5: cascade termination.  For every module graph (the `affects`
relation may contain cycles), every dependency rule, and every initial
decision array, the worklist loop drains within `cascadeMeasure` steps
(the measure bounds the queue length plus the total remaining upward
movement of the per-module `(bumpType, needsProcessing)` pairs), and any
extra fuel leaves the result unchanged — the loop has reached its fixed
point. -/
theorem cascade_terminates (affects : String → List String)
    (rule : BumpType → BumpType) (chgs : List ProcessingModuleChange) :
    (cascadeRun affects rule (cascadeMeasure (initCascadeState chgs))
      (initCascadeState chgs)).queue = [] ∧
    ∀ extra : Nat,
      cascadeRun affects rule (cascadeMeasure (initCascadeState chgs) + extra)
        (initCascadeState chgs)
      = cascadeRun affects rule (cascadeMeasure (initCascadeState chgs))
        (initCascadeState chgs) := by
  have hdrain := cascadeRun_drains affects rule
    (cascadeMeasure (initCascadeState chgs)) (initCascadeState chgs)
    (initCascadeState_nodup chgs) (Nat.le_refl _)
  refine ⟨hdrain, ?_⟩
  intro extra
  rw [cascadeRun_add affects rule _ extra,
    cascadeRun_queue_nil _ _ _ _ hdrain]
